import Mathlib

/-!
Verification of the render-scheduling core of OmniMarkupPreviewer
(`OmniMarkupPreviewer.py`).

The development shallowly embeds the plugin's `ThrottleQueue` scheduler, its
dispatch callback, and the user-facing commands (`OmniMarkupPreviewCommand`,
`OmniMarkupCleanCacheCommand`, `OmniMarkupExportCommand`) as pure Lean
functions.  Wall-clock times and timeouts (Python floats such as `0.01`,
`0.02`, `0.5`) are modelled as rationals; external calls that the scheduler
makes (`RendererManager.enqueue_view`, `sublime.set_timeout`) are modelled as
emitted events.  The per-view dictionary `view_entry_mapping` is modelled as
an association list with Python-dict semantics: lookup finds the first
matching key, an update rewrites the stored entry in place, an insert appends
at the end.
-/

/-- An editor view, restricted to the attributes the embedded code reads.
`rendererEnabled` models the external lookup
`RendererManager.has_renderer_enabled_in_view(view)`, which is an
interface-boundary capability provided by `OmniMarkupLib`. -/
structure View where
  id : Nat
  bufferId : Int
  fileName : Option String
  isLoading : Bool
  rendererEnabled : Bool
deriving DecidableEq, Repr

/-- `RendererManager.has_renderer_enabled_in_view`, reduced to the abstract
capability recorded on the view. -/
def RendererManager.hasRendererEnabledInView (view : View) : Bool :=
  view.rendererEnabled

namespace ThrottleQueue

/-- `ThrottleQueue.WAIT_TIMEOUT = 0.02` (seconds). -/
def WAIT_TIMEOUT : ℚ := 2/100

/-- `ThrottleQueue.Entry.__init__`: stores the view, a snapshot of
`view.file_name()`, and the remaining timeout. -/
structure Entry where
  view : View
  filename : Option String
  timeout : ℚ
deriving DecidableEq, Repr

/-- The observable external calls the scheduler makes.  `renderNow` models a
synchronous `RendererManager.enqueue_view(view, only_exists=True)`;
`asyncDispatch` models `sublime.set_timeout(partial(
enqueue_view_to_renderer_manager, view, filename), 0)`, i.e. a hand-off to
the host's main-thread callback mechanism rather than an inline render. -/
inductive Event where
  | renderNow (viewId : Nat)
  | asyncDispatch (view : View) (filename : Option String)
deriving DecidableEq, Repr

/-- The mutable state of a `ThrottleQueue` object, plus the loop-local
`prev_time` variable of `run`. -/
structure State where
  stopping : Bool
  lastSignaled : ℚ
  entries : List (Nat × Entry)
  prevTime : ℚ
deriving DecidableEq, Repr

/-- Python-dict lookup `mapping[k]` / `k in mapping` on the association
list: first entry with the matching key. -/
def dictGet (k : Nat) (m : List (Nat × Entry)) : Option Entry :=
  (m.find? (fun p => p.1 == k)).map Prod.snd

/-- Python-dict deletion `del mapping[k]`. -/
def dictDelete (k : Nat) (m : List (Nat × Entry)) : List (Nat × Entry) :=
  m.filter (fun p => p.1 != k)

/-- Python-dict write `mapping[k] = e`: update the stored pair in place when
the key is present, append at the end otherwise. -/
def dictSet (k : Nat) (e : Entry) : List (Nat × Entry) → List (Nat × Entry)
  | [] => [(k, e)]
  | p :: rest => if p.1 = k then (k, e) :: rest else p :: dictSet k e rest

/-- `ThrottleQueue.put(view, preemptive, timeout)` called at wall time `now`.
Returns the new scheduler state and the externally visible calls made.
Faithful to the source: the renderer gate returns first; then the debounce
guard (`view_id in self.view_entry_mapping` and
`now - self.last_signaled <= 0.01`) drops the call; then either the
preemptive path (delete any pending entry, enqueue the view immediately,
update `last_signaled`) or the delayed path (create the entry, or refresh the
existing entry's view, filename and timeout in place) runs. -/
def put (s : State) (view : View) (preemptive : Bool) (timeout : ℚ) (now : ℚ) :
    State × List Event :=
  if RendererManager.hasRendererEnabledInView view = false then (s, [])
  else if (dictGet view.id s.entries).isSome = true ∧ now - s.lastSignaled ≤ 1/100 then
    (s, [])
  else if preemptive then
    ({ s with entries := dictDelete view.id s.entries, lastSignaled := now },
     [Event.renderNow view.id])
  else
    ({ s with entries := dictSet view.id ⟨view, view.fileName, timeout⟩ s.entries },
     [])

/-- `ThrottleQueue.enqueue_view_to_renderer_manager(view, filename)` executed
at wall time `now` with the current `last_signaled` value.  Returns the
external calls made and the new `last_signaled`. -/
def enqueueViewToRendererManager (view : View) (filename : Option String)
    (lastSignaled now : ℚ) : List Event × ℚ :=
  if view.isLoading = true ∨ view.fileName ≠ filename then ([], lastSignaled)
  else if RendererManager.hasRendererEnabledInView view = true then
    ([Event.renderNow view.id], now)
  else ([], lastSignaled)

/-- One wake of the `ThrottleQueue.run` loop at wall time `now`: check the
stopping flag; with a non-empty pending set, decrement every entry's timeout
by `max(now - prev_time, WAIT_TIMEOUT)`, delete the entries that reach zero
or below and dispatch each of them asynchronously via `sublime.set_timeout`.
The third component is `true` when the loop breaks (terminates). -/
def wake (s : State) (now : ℚ) : State × List Event × Bool :=
  if s.stopping = true then (s, [], true)
  else if s.entries.isEmpty = true then (s, [], false)
  else
    let dec := max (now - s.prevTime) WAIT_TIMEOUT
    let stepped := s.entries.map (fun p => (p.1, { p.2 with timeout := p.2.timeout - dec }))
    ({ s with entries := stepped.filter (fun p => !decide (p.2.timeout ≤ 0)),
              prevTime := now },
     (stepped.filter (fun p => decide (p.2.timeout ≤ 0))).map
       (fun p => Event.asyncDispatch p.2.view p.2.filename),
     false)

/-- The state change performed by `ThrottleQueue.stop` while holding the
condition variable: set the stopping flag (the notify and the join are
modelled by the trace semantics below). -/
def stop (s : State) : State :=
  { s with stopping := true }

end ThrottleQueue

/-- An atomic step interleaved on the scheduler's mutex: a wake of the `run`
loop, a `put` call, or the flag-setting step of `stop`.  The loop holds
`self.cond` for the whole body of a wake and `stop` acquires the same
condition variable, so steps of the real program interleave at exactly this
granularity. -/
inductive SchedOp where
  | wakeOp (now : ℚ)
  | putOp (view : View) (preemptive : Bool) (timeout : ℚ) (now : ℚ)
  | stopOp
deriving DecidableEq, Repr

/-- Execute one atomic scheduler step. -/
def execOp (s : ThrottleQueue.State) : SchedOp → ThrottleQueue.State × List ThrottleQueue.Event
  | SchedOp.wakeOp now => ((ThrottleQueue.wake s now).1, (ThrottleQueue.wake s now).2.1)
  | SchedOp.putOp view p t now => ThrottleQueue.put s view p t now
  | SchedOp.stopOp => (ThrottleQueue.stop s, [])

/-- Execute a sequence of atomic scheduler steps, returning the final state. -/
def execTrace (s : ThrottleQueue.State) : List SchedOp → ThrottleQueue.State
  | [] => s
  | op :: rest => execTrace (execOp s op).1 rest

/-- One non-preemptive `put` request: the arguments of a call
`put(view, preemptive=False, timeout)` issued at wall time `now`. -/
structure PutReq where
  view : View
  timeout : ℚ
  now : ℚ
deriving DecidableEq, Repr

/-- The state after one non-preemptive `put` request. -/
def delayedStep (s : ThrottleQueue.State) (r : PutReq) : ThrottleQueue.State :=
  (ThrottleQueue.put s r.view false r.timeout r.now).1

/-- The state after a sequence of non-preemptive `put` requests. -/
def applyPuts (s : ThrottleQueue.State) : List PutReq → ThrottleQueue.State
  | [] => s
  | r :: rest => applyPuts (delayedStep s r) rest

/-- A request passes the renderer gate and is not dropped by the debounce
guard in state `s`. -/
def reqAccepted (s : ThrottleQueue.State) (r : PutReq) : Bool :=
  decide (r.view.rendererEnabled = true ∧
    ¬((ThrottleQueue.dictGet r.view.id s.entries).isSome = true ∧
      r.now - s.lastSignaled ≤ 1/100))

/-- Every request of the sequence, run from state `s`, passes the renderer
gate and the debounce guard. -/
def allAccepted (s : ThrottleQueue.State) : List PutReq → Bool
  | [] => true
  | r :: rest => reqAccepted s r && allAccepted (delayedStep s r) rest

/-- The last request of the sequence whose view has id `k`, if any. -/
def lastPutFor (k : Nat) (reqs : List PutReq) : Option PutReq :=
  reqs.foldl (fun acc r => if r.view.id = k then some r else acc) none

/-- The association list has no repeated keys (what a Python dict guarantees
structurally). -/
def keysNodup (m : List (Nat × ThrottleQueue.Entry)) : Prop :=
  (m.map Prod.fst).Nodup

/-- Every stored entry is keyed by its own view's id. -/
def entriesConsistent (m : List (Nat × ThrottleQueue.Entry)) : Bool :=
  m.all (fun p => p.2.view.id == p.1)

/-- `RenderedMarkupCache`'s storage, keyed by buffer id.

Modelled from the spec: `RenderedMarkupCache` lives in
`OmniMarkupLib.RendererManager` and is not part of the analysed source file;
the spec specifies it as `evict(keepIds)` — "removes every CacheEntry whose
id is not in keepIds" — and `clear_all()` — "removes every entry
unconditionally".  The single method `clean` of the source maps to `evict`
when a keep set is given and to `clear_all` when called with no keep set. -/
structure RenderedMarkupCache where
  storage : List (Int × String)
deriving DecidableEq, Repr

/-- Modelled from the spec: `RenderedMarkupCache.clean(keep_ids=None)`.
With no keep set, remove every entry; with a keep set, remove exactly the
entries whose id is not in the keep set. -/
def RenderedMarkupCache.clean (c : RenderedMarkupCache) (keepIds : Option (List Int)) :
    RenderedMarkupCache :=
  match keepIds with
  | none => ⟨[]⟩
  | some keep => ⟨c.storage.filter (fun p => keep.contains p.1)⟩

/-- The keep-id list built by `OmniMarkupCleanCacheCommand.run`: the buffer
ids of all views across all open windows (`sublime.windows()`), in order. -/
def cleanCacheKeepIds (windows : List (List View)) : List Int :=
  windows.flatMap (fun w => w.map (fun v => v.bufferId))

/-- `OmniMarkupCleanCacheCommand.run(remove_all)` acting on the cache, with
the current window/view layout passed explicitly. -/
def OmniMarkupCleanCacheCommand.run (removeAll : Bool) (windows : List (List View))
    (storage : RenderedMarkupCache) : RenderedMarkupCache :=
  if removeAll then storage.clean none
  else storage.clean (some (cleanCacheKeepIds windows))

/-- A Python exception as caught by `OmniMarkupExportCommand.run`'s handlers:
`NotImplementedError` is caught by its own clause; everything else (I/O
errors included) falls to the bare `except`. -/
inductive PyErr where
  | notImplementedError
  | ioError (msg : String)
deriving DecidableEq, Repr

/-- The environment an export runs in: the outcome of
`RendererManager.render_view_to_string`, the export settings, the view's
file name, the `time.strftime` result, the filesystem predicates
(`os.path.exists`, `os.path.isdir`), the name produced by
`tempfile.NamedTemporaryFile`, the outcome of writing each path, and the
path-manipulation helpers of `os.path` (external stdlib, abstracted). -/
structure ExportEnv where
  renderResult : Except PyErr String
  targetFolder : Option String
  viewFileName : Option String
  timestr : String
  pathExists : String → Bool
  isDir : String → Bool
  tempName : String
  writeResult : String → Except PyErr Unit
  copyToClipboard : Bool
  openAfterExporting : Bool
  splitextBase : String → String
  basename : String → String
  pathJoin : String → String → String

/-- The output path computed by `OmniMarkupExportCommand.run` (lines
135-156): the branch ladder over `target_folder`, falling back to a named
temporary file when no target folder is configured or the configured one is
unusable. -/
def exportHtmlFn (env : ExportEnv) : String :=
  match env.targetFolder with
  | none => env.tempName
  | some tf =>
    let fullpath := env.viewFileName.getD ""
    if (!env.pathExists fullpath && tf == ".") || !env.isDir tf then env.tempName
    else if tf == "." then env.splitextBase fullpath ++ env.timestr ++ ".html"
    else if !env.pathExists fullpath then
      env.pathJoin tf ("Untitled" ++ env.timestr ++ ".html")
    else env.pathJoin tf (env.basename fullpath ++ env.timestr ++ ".html")

/-- What `OmniMarkupExportCommand.run` is observed to do: a successful write
to `path` (with the clipboard/open flags honoured), a silent skip
(`except NotImplementedError: pass`), or a logged failure
(`except: log.exception(...)`).  No constructor models an escaping
exception: the command's `try` block covers its whole body. -/
inductive ExportOutcome where
  | success (path : String) (clipboard : Bool) (opened : Bool)
  | silentSkip
  | loggedError
deriving DecidableEq, Repr

/-- How `OmniMarkupExportCommand.run`'s handlers treat a raised exception. -/
def pyErrOutcome : PyErr → ExportOutcome
  | PyErr.notImplementedError => ExportOutcome.silentSkip
  | PyErr.ioError _ => ExportOutcome.loggedError

/-- `OmniMarkupExportCommand.run`: render the view synchronously to a string,
compute the output path, write the file; any exception raised on the way is
routed to the matching handler. -/
def OmniMarkupExportCommand.run (env : ExportEnv) : ExportOutcome :=
  match env.renderResult with
  | Except.error e => pyErrOutcome e
  | Except.ok _ =>
    match env.writeResult (exportHtmlFn env) with
    | Except.error e => pyErrOutcome e
    | Except.ok _ =>
      ExportOutcome.success (exportHtmlFn env) env.copyToClipboard env.openAfterExporting

/-- `OmniMarkupExportCommand.is_enabled`. -/
def OmniMarkupExportCommand.isEnabled (view : View) : Bool :=
  RendererManager.hasRendererEnabledInView view

/-- A Python 2 runtime value as it occurs in the preview command's
comparison: an `int`, or a bound method object (identified by the object it
is bound to and the attribute name). -/
inductive PyVal where
  | int (n : Int)
  | boundMethod (objId : Nat) (attr : String)
deriving DecidableEq, Repr

/-- Python 2 `==` on these values: two ints compare by value, two bound
methods compare by bound object and function, and an int never equals a
method object. -/
def pyEq : PyVal → PyVal → Bool
  | PyVal.int a, PyVal.int b => a == b
  | PyVal.boundMethod o a, PyVal.boundMethod o' a' => o == o' && a == a'
  | _, _ => false

/-- The observable actions of `OmniMarkupPreviewCommand.run`. -/
inductive PreviewEvent where
  | enqueueImmediate (viewId : Nat)
  | launchBrowser (port : Nat) (bufferId : Int)
deriving DecidableEq, Repr

/-- `OmniMarkupPreviewCommand.run`: take `buffer_id = self.view.buffer_id()`
(an `int`), scan the window's views testing `view.buffer_id == buffer_id` —
note the source compares the *method object* `view.buffer_id`, not its call
result — and when no view matched, enqueue an immediate render; finally
launch the browser on the view URL. -/
def OmniMarkupPreviewCommand.run (self : View) (windowViews : List View)
    (serverPort : Nat) : List PreviewEvent :=
  let buffer_id : PyVal := PyVal.int self.bufferId
  let opened := windowViews.any (fun v => pyEq (PyVal.boundMethod v.id "buffer_id") buffer_id)
  (if !opened then [PreviewEvent.enqueueImmediate self.id] else []) ++
    [PreviewEvent.launchBrowser serverPort self.bufferId]

/-- `OmniMarkupPreviewCommand.is_enabled`. -/
def OmniMarkupPreviewCommand.isEnabled (view : View) : Bool :=
  RendererManager.hasRendererEnabledInView view


namespace ThrottleQueue

theorem dictGet_cons (k : Nat) (p : Nat × Entry) (rest : List (Nat × Entry)) :
    dictGet k (p :: rest) = if p.1 = k then some p.2 else dictGet k rest := by
  by_cases h : p.1 = k <;> simp [dictGet, List.find?_cons, h]

theorem dictGet_eq_none_iff {k : Nat} {m : List (Nat × Entry)} :
    dictGet k m = none ↔ ∀ p ∈ m, p.1 ≠ k := by
  induction m with
  | nil => simp [dictGet]
  | cons p rest ih =>
    rw [dictGet_cons]
    by_cases h : p.1 = k
    · simp [h]
    · simp only [if_neg h, ih, List.mem_cons, forall_eq_or_imp]
      simp [h]

theorem dictDelete_cons (k : Nat) (p : Nat × Entry) (rest : List (Nat × Entry)) :
    dictDelete k (p :: rest) =
      if p.1 = k then dictDelete k rest else p :: dictDelete k rest := by
  by_cases h : p.1 = k <;> simp [dictDelete, List.filter_cons, h]

theorem dictDelete_of_get_none {k : Nat} {m : List (Nat × Entry)}
    (h : dictGet k m = none) : dictDelete k m = m := by
  induction m with
  | nil => rfl
  | cons p rest ih =>
    rw [dictGet_cons] at h
    by_cases hp : p.1 = k
    · simp [hp] at h
    · rw [if_neg hp] at h
      rw [dictDelete_cons, if_neg hp, ih h]

theorem dictGet_dictDelete_self (k : Nat) (m : List (Nat × Entry)) :
    dictGet k (dictDelete k m) = none := by
  induction m with
  | nil => rfl
  | cons p rest ih =>
    rw [dictDelete_cons]
    by_cases h : p.1 = k
    · rw [if_pos h]
      exact ih
    · rw [if_neg h, dictGet_cons, if_neg h]
      exact ih

theorem dictGet_dictDelete_other {k k' : Nat} (h : k' ≠ k) (m : List (Nat × Entry)) :
    dictGet k' (dictDelete k m) = dictGet k' m := by
  induction m with
  | nil => rfl
  | cons p rest ih =>
    rw [dictDelete_cons, dictGet_cons]
    by_cases hk : p.1 = k
    · have hne : ¬ p.1 = k' := fun hc => h ((hc.symm.trans hk))
      rw [if_pos hk, if_neg hne]
      exact ih
    · rw [if_neg hk, dictGet_cons]
      by_cases hk' : p.1 = k'
      · rw [if_pos hk', if_pos hk']
      · rw [if_neg hk', if_neg hk']
        exact ih

theorem dictSet_of_get_none {k : Nat} {m : List (Nat × Entry)} (e : Entry)
    (h : dictGet k m = none) : dictSet k e m = m ++ [(k, e)] := by
  induction m with
  | nil => rfl
  | cons p rest ih =>
    rw [dictGet_cons] at h
    by_cases hp : p.1 = k
    · simp [hp] at h
    · rw [if_neg hp] at h
      rw [dictSet, if_neg hp, ih h]
      rfl

theorem dictGet_dictSet_self (k : Nat) (e : Entry) (m : List (Nat × Entry)) :
    dictGet k (dictSet k e m) = some e := by
  induction m with
  | nil => simp [dictSet, dictGet_cons]
  | cons p rest ih =>
    rw [dictSet]
    by_cases hp : p.1 = k
    · rw [if_pos hp, dictGet_cons, if_pos rfl]
    · rw [if_neg hp, dictGet_cons, if_neg hp]
      exact ih

theorem dictGet_dictSet_other {k k' : Nat} (h : k' ≠ k) (e : Entry)
    (m : List (Nat × Entry)) : dictGet k' (dictSet k e m) = dictGet k' m := by
  induction m with
  | nil =>
    simp [dictSet, dictGet_cons, dictGet]
    exact fun hc => h hc.symm
  | cons p rest ih =>
    rw [dictSet]
    by_cases hp : p.1 = k
    · have h1 : ¬ (k = k') := fun hc => h hc.symm
      have h2 : ¬ (p.1 = k') := fun hc => h (hc.symm.trans hp)
      rw [if_pos hp, dictGet_cons, dictGet_cons, if_neg h1, if_neg h2]
    · rw [if_neg hp, dictGet_cons, dictGet_cons]
      by_cases hp' : p.1 = k'
      · rw [if_pos hp', if_pos hp']
      · rw [if_neg hp', if_neg hp']
        exact ih

theorem mem_keys_dictSet {a k : Nat} (e : Entry) (m : List (Nat × Entry)) :
    a ∈ (dictSet k e m).map Prod.fst ↔ a = k ∨ a ∈ m.map Prod.fst := by
  induction m with
  | nil => simp [dictSet]
  | cons p rest ih =>
    rw [dictSet]
    by_cases hp : p.1 = k
    · rw [if_pos hp]
      simp [hp]
    · rw [if_neg hp]
      simp [ih]
      tauto

theorem keysNodup_dictSet (k : Nat) (e : Entry) (m : List (Nat × Entry))
    (h : (m.map Prod.fst).Nodup) : ((dictSet k e m).map Prod.fst).Nodup := by
  induction m with
  | nil => simp [dictSet]
  | cons p rest ih =>
    rw [dictSet]
    simp only [List.map_cons, List.nodup_cons] at h
    by_cases hp : p.1 = k
    · rw [if_pos hp]
      simp only [List.map_cons, List.nodup_cons]
      rw [← hp]
      exact h
    · rw [if_neg hp]
      simp only [List.map_cons, List.nodup_cons]
      constructor
      · rw [mem_keys_dictSet]
        rintro (hc | hc)
        · exact hp hc
        · exact h.1 hc
      · exact ih h.2

end ThrottleQueue

namespace ThrottleQueue

theorem put_not_enabled {view : View} (h : view.rendererEnabled = false)
    (s : State) (p : Bool) (t now : ℚ) : put s view p t now = (s, []) := by
  simp [put, RendererManager.hasRendererEnabledInView, h]

theorem put_guard_drop {s : State} {view : View} {now : ℚ}
    (hsome : (dictGet view.id s.entries).isSome = true)
    (hle : now - s.lastSignaled ≤ 1/100) (p : Bool) (t : ℚ) :
    put s view p t now = (s, []) := by
  cases hen : view.rendererEnabled with
  | false => simp [put, RendererManager.hasRendererEnabledInView, hen]
  | true =>
    unfold put
    rw [if_neg (by simp [RendererManager.hasRendererEnabledInView, hen]),
      if_pos ⟨hsome, hle⟩]

theorem put_accepted {s : State} {view : View} {now : ℚ}
    (hen : view.rendererEnabled = true)
    (hg : ¬((dictGet view.id s.entries).isSome = true ∧ now - s.lastSignaled ≤ 1/100))
    (p : Bool) (t : ℚ) :
    put s view p t now =
      if p then
        ({ s with entries := dictDelete view.id s.entries, lastSignaled := now },
         [Event.renderNow view.id])
      else
        ({ s with entries := dictSet view.id ⟨view, view.fileName, t⟩ s.entries }, []) := by
  unfold put
  rw [if_neg (by simp [RendererManager.hasRendererEnabledInView, hen]), if_neg hg]

theorem put_stopping (s : State) (view : View) (p : Bool) (t now : ℚ) :
    ((put s view p t now).1).stopping = s.stopping := by
  unfold put
  split_ifs <;> rfl

theorem wake_stopping (s : State) (now : ℚ) :
    ((wake s now).1).stopping = s.stopping := by
  unfold wake
  split_ifs <;> rfl

theorem wake_of_stopping {s : State} (h : s.stopping = true) (now : ℚ) :
    wake s now = (s, [], true) := by
  simp [wake, h]

theorem wake_events_sub {s : State} {now : ℚ} {ev : Event}
    (h : ev ∈ (wake s now).2.1) :
    ∃ p ∈ s.entries, ev = Event.asyncDispatch p.2.view p.2.filename := by
  by_cases hstop : s.stopping = true
  · rw [wake_of_stopping hstop] at h
    simp at h
  · rw [Bool.not_eq_true] at hstop
    by_cases hemp : s.entries.isEmpty = true
    · simp [wake, hstop, hemp] at h
    · simp only [wake, hstop, hemp, Bool.false_eq_true, if_false, if_neg] at h
      simp only [List.mem_map, List.mem_filter, List.mem_map] at h
      obtain ⟨q, ⟨⟨p, hp, hq⟩, _⟩, hev⟩ := h
      exact ⟨p, hp, by rw [← hev, ← hq]⟩

end ThrottleQueue

theorem entriesConsistent_sub {m m' : List (Nat × ThrottleQueue.Entry)}
    (hsub : ∀ p ∈ m', p ∈ m) (h : entriesConsistent m = true) :
    entriesConsistent m' = true := by
  simp only [entriesConsistent, List.all_eq_true] at h ⊢
  intro p hp
  exact h p (hsub p hp)

theorem execOp_stopping {s : ThrottleQueue.State} (h : s.stopping = true)
    (op : SchedOp) : ((execOp s op).1).stopping = true := by
  cases op with
  | wakeOp now => rw [execOp, ThrottleQueue.wake_stopping]; exact h
  | putOp view p t now => rw [execOp, ThrottleQueue.put_stopping]; exact h
  | stopOp => rfl

theorem execTrace_stopping {s : ThrottleQueue.State} (h : s.stopping = true)
    (ops : List SchedOp) : (execTrace s ops).stopping = true := by
  induction ops generalizing s with
  | nil => exact h
  | cons op rest ih => exact ih (execOp_stopping h op)

theorem reqAccepted_iff {s : ThrottleQueue.State} {r : PutReq} :
    reqAccepted s r = true ↔
      r.view.rendererEnabled = true ∧
        ¬((ThrottleQueue.dictGet r.view.id s.entries).isSome = true ∧
          r.now - s.lastSignaled ≤ 1/100) := by
  exact decide_eq_true_iff

theorem delayedStep_accepted {s : ThrottleQueue.State} {r : PutReq}
    (h : reqAccepted s r = true) :
    delayedStep s r =
      { s with entries :=
          ThrottleQueue.dictSet r.view.id ⟨r.view, r.view.fileName, r.timeout⟩ s.entries } := by
  rw [reqAccepted_iff] at h
  rw [delayedStep, ThrottleQueue.put_accepted h.1 h.2]
  simp

theorem allAccepted_cons {s : ThrottleQueue.State} {r : PutReq} {rest : List PutReq} :
    allAccepted s (r :: rest) = true ↔
      reqAccepted s r = true ∧ allAccepted (delayedStep s r) rest = true := by
  simp [allAccepted]

theorem foldl_lastPut (k : Nat) (reqs : List PutReq) (acc : Option PutReq) :
    reqs.foldl (fun a r => if r.view.id = k then some r else a) acc =
      (lastPutFor k reqs).elim acc some := by
  induction reqs generalizing acc with
  | nil => rfl
  | cons r rest ih =>
    show rest.foldl _ (if r.view.id = k then some r else acc) = _
    rw [ih]
    have hr : lastPutFor k (r :: rest) =
        (lastPutFor k rest).elim (if r.view.id = k then some r else none) some := by
      show rest.foldl _ (if r.view.id = k then some r else none) = _
      rw [ih]
    rw [hr]
    cases hl : lastPutFor k rest with
    | some r' => rfl
    | none =>
      by_cases hk : r.view.id = k
      · simp [hk]
      · simp [hk]

/-- A concrete markdown view with a renderer enabled, used as witness data. -/
def viewA : View := ⟨1, 10, some "a.md", false, true⟩

/-- A view sharing `viewA`'s id but carrying a different file name, as after
the buffer was saved to a new path. -/
def viewA2 : View := ⟨1, 10, some "b.md", false, true⟩

/-- A view that is still loading. -/
def viewLoading : View := ⟨4, 40, some "e.md", true, true⟩

/-- A view with no renderer enabled. -/
def viewNoR : View := ⟨3, 30, some "d.txt", false, false⟩

/-- A scheduler state holding one pending entry for `viewA` with half a
second left. -/
def statePending : ThrottleQueue.State :=
  ⟨false, 0, [(1, ⟨viewA, some "a.md", 1/2⟩)], 0⟩

/-- An idle scheduler state with no pending entries. -/
def stateIdle : ThrottleQueue.State := ⟨false, 0, [], 0⟩

/-- A concrete render cache holding entries for buffer ids 10 and 99. -/
def cacheW : RenderedMarkupCache := ⟨[(10, "A"), (99, "Z")]⟩

/-- Claim C5: after `stop()` the background loop is terminated and dispatches
nothing: once the stopping flag is set — and no later step ever resets it —
every subsequent wake of the `run` loop emits no render dispatch and breaks
out of the loop immediately, whatever entries are still pending.  The join
performed by `stop()` and the mutual exclusion of the condition variable are
modelled by the atomic interleaving `execTrace`. -/
theorem claim_C5_stop_terminates (s : ThrottleQueue.State) (ops : List SchedOp) (now : ℚ) :
    ThrottleQueue.wake (execTrace (ThrottleQueue.stop s) ops) now =
      (execTrace (ThrottleQueue.stop s) ops, [], true) :=
  ThrottleQueue.wake_of_stopping (execTrace_stopping rfl ops) now

/-- Claim C9: every user-facing command is gated on renderer availability:
the preview and export commands report enabled exactly when a renderer is
enabled for the view, and a `put` for a view with no enabled renderer
returns at once, leaving the scheduler state unchanged and triggering no
render. -/
theorem claim_C9_renderer_gating (view : View) (s : ThrottleQueue.State)
    (p : Bool) (t now : ℚ) :
    (OmniMarkupPreviewCommand.isEnabled view = true ↔ view.rendererEnabled = true) ∧
    (OmniMarkupExportCommand.isEnabled view = true ↔ view.rendererEnabled = true) ∧
    (view.rendererEnabled = false → ThrottleQueue.put s view p t now = (s, [])) :=
  ⟨Iff.rfl, Iff.rfl, fun h => ThrottleQueue.put_not_enabled h s p t now⟩

/-- Witness for claim C9 at a view whose renderer is disabled. -/
theorem claim_C9_witness :
    viewNoR.rendererEnabled = false ∧
    OmniMarkupPreviewCommand.isEnabled viewNoR = false ∧
    OmniMarkupExportCommand.isEnabled viewNoR = false ∧
    ThrottleQueue.put stateIdle viewNoR true (1/2) 0 = (stateIdle, []) :=
  ⟨rfl, rfl, rfl, (claim_C9_renderer_gating viewNoR stateIdle true (1/2) 0).2.2 rfl⟩

/-- Claim C10: the preview command's "is opened in a tab?" test compares the
bound method object `view.buffer_id` with the integer `buffer_id`, which is
never true in Python 2, so the not-opened branch always runs: every
invocation enqueues an immediate render before launching the browser. -/
theorem claim_C10_preview_always_enqueues (self : View) (windowViews : List View)
    (serverPort : Nat) :
    OmniMarkupPreviewCommand.run self windowViews serverPort =
      [PreviewEvent.enqueueImmediate self.id,
       PreviewEvent.launchBrowser serverPort self.bufferId] := by
  simp [OmniMarkupPreviewCommand.run, pyEq, List.any_eq_false]

/-- Claim C6: a dispatched render drops silently when the view is still
loading or its file name changed since the entry was queued; otherwise, with
a renderer enabled, it enqueues the render and updates `last_signaled` (and
with no renderer enabled it does nothing). -/
theorem claim_C6_dispatch_guard (view : View) (filename : Option String) (ls now : ℚ) :
    (view.isLoading = true ∨ view.fileName ≠ filename →
      ThrottleQueue.enqueueViewToRendererManager view filename ls now = ([], ls)) ∧
    (view.isLoading = false → view.fileName = filename → view.rendererEnabled = true →
      ThrottleQueue.enqueueViewToRendererManager view filename ls now =
        ([ThrottleQueue.Event.renderNow view.id], now)) ∧
    (view.isLoading = false → view.fileName = filename → view.rendererEnabled = false →
      ThrottleQueue.enqueueViewToRendererManager view filename ls now = ([], ls)) := by
  refine ⟨fun h => ?_, fun h1 h2 h3 => ?_, fun h1 h2 h3 => ?_⟩
  · rw [ThrottleQueue.enqueueViewToRendererManager, if_pos h]
  · rw [ThrottleQueue.enqueueViewToRendererManager,
      if_neg (by simp [h1, h2]),
      if_pos (by simp [RendererManager.hasRendererEnabledInView, h3])]
  · rw [ThrottleQueue.enqueueViewToRendererManager,
      if_neg (by simp [h1, h2]),
      if_neg (by simp [RendererManager.hasRendererEnabledInView, h3])]

/-- Witness for claim C6: a loading view is dropped; a ready view with a
matching path is enqueued and refreshes the last-signaled timestamp. -/
theorem claim_C6_witness :
    viewLoading.isLoading = true ∧
    ThrottleQueue.enqueueViewToRendererManager viewLoading (some "e.md") 0 5 = ([], 0) ∧
    viewA.isLoading = false ∧ viewA.fileName = some "a.md" ∧
    viewA.rendererEnabled = true ∧
    ThrottleQueue.enqueueViewToRendererManager viewA (some "a.md") 0 5 =
      ([ThrottleQueue.Event.renderNow viewA.id], 5) :=
  ⟨rfl,
   (claim_C6_dispatch_guard viewLoading (some "e.md") 0 5).1 (Or.inl rfl),
   rfl, rfl, rfl,
   (claim_C6_dispatch_guard viewA (some "a.md") 0 5).2.1 rfl rfl rfl⟩

/-- Claim C7: the clean-cache command with `remove_all` clears every cache
entry; without it, it keeps exactly the entries whose id is the buffer id of
some view in some open window and evicts all others. -/
theorem claim_C7_clean_cache (windows : List (List View)) (storage : RenderedMarkupCache) :
    (OmniMarkupCleanCacheCommand.run true windows storage).storage = [] ∧
    (∀ i h, (i, h) ∈ (OmniMarkupCleanCacheCommand.run false windows storage).storage ↔
      (i, h) ∈ storage.storage ∧ ∃ w ∈ windows, ∃ v ∈ w, v.bufferId = i) := by
  constructor
  · rfl
  · intro i h
    simp only [OmniMarkupCleanCacheCommand.run, RenderedMarkupCache.clean,
      cleanCacheKeepIds, if_neg, Bool.false_eq_true, not_false_iff,
      List.mem_filter, List.contains_iff_exists_mem_beq, List.mem_flatMap,
      List.mem_map, beq_iff_eq]
    constructor
    · rintro ⟨hm, a, ⟨w, hw, v, hv, hva⟩, hai⟩
      exact ⟨hm, w, hw, v, hv, by rw [hva, hai]⟩
    · rintro ⟨hm, w, hw, v, hv, hvi⟩
      exact ⟨hm, i, ⟨w, hw, v, hv, hvi⟩, rfl⟩

/-- Witness for claim C7: with one open window showing `viewA` (buffer id
10), a full clean empties the cache, and a keep-clean retains the entry for
buffer 10 while evicting the entry for the closed buffer 99. -/
theorem claim_C7_witness :
    (OmniMarkupCleanCacheCommand.run true [[viewA]] cacheW).storage = [] ∧
    (10, "A") ∈ (OmniMarkupCleanCacheCommand.run false [[viewA]] cacheW).storage ∧
    ¬ (99, "Z") ∈ (OmniMarkupCleanCacheCommand.run false [[viewA]] cacheW).storage :=
  ⟨(claim_C7_clean_cache [[viewA]] cacheW).1,
   ((claim_C7_clean_cache [[viewA]] cacheW).2 10 "A").mpr
     ⟨by simp [cacheW], [viewA], by simp, viewA, by simp, rfl⟩,
   fun hc => by
     have h99 := ((claim_C7_clean_cache [[viewA]] cacheW).2 99 "Z").mp hc
     simp [viewA] at h99⟩

/-- Claim C2: the debounce guard: whenever a pending entry for the view's id
exists and at most 10 ms have passed since the last signaled render, `put`
is dropped entirely — state unchanged, no render; and when no entry exists
for the id, the guard never drops the call: `put` runs its preemptive or
delayed path whatever the distance to the last signal. -/
theorem claim_C2_debounce_guard (s : ThrottleQueue.State) (view : View)
    (p : Bool) (t now : ℚ) :
    ((ThrottleQueue.dictGet view.id s.entries).isSome = true →
      now - s.lastSignaled ≤ 1/100 →
      ThrottleQueue.put s view p t now = (s, [])) ∧
    (ThrottleQueue.dictGet view.id s.entries = none → view.rendererEnabled = true →
      ThrottleQueue.put s view p t now =
        if p then
          ({ s with lastSignaled := now }, [ThrottleQueue.Event.renderNow view.id])
        else
          ({ s with entries := s.entries ++ [(view.id, ⟨view, view.fileName, t⟩)] },
           [])) := by
  constructor
  · intro h1 h2
    exact ThrottleQueue.put_guard_drop h1 h2 p t
  · intro hnone hen
    have hg : ¬((ThrottleQueue.dictGet view.id s.entries).isSome = true ∧
        now - s.lastSignaled ≤ 1/100) := by
      rintro ⟨hc, -⟩
      rw [hnone] at hc
      simp at hc
    rw [ThrottleQueue.put_accepted hen hg p t,
      ThrottleQueue.dictDelete_of_get_none hnone,
      ThrottleQueue.dictSet_of_get_none _ hnone]

/-- Witness for claim C2: with a pending entry for `viewA` and 5 ms since
the last signal the call is dropped; from the idle state the same call at
distance 0 from the last signal is not dropped and creates the entry. -/
theorem claim_C2_witness :
    (ThrottleQueue.dictGet viewA.id statePending.entries).isSome = true ∧
    (1:ℚ)/200 - statePending.lastSignaled ≤ 1/100 ∧
    ThrottleQueue.put statePending viewA false (3/10) (1/200) = (statePending, []) ∧
    ThrottleQueue.dictGet viewA.id stateIdle.entries = none ∧
    ThrottleQueue.put stateIdle viewA false (3/10) 0 =
      ({ stateIdle with
          entries := stateIdle.entries ++ [(viewA.id, ⟨viewA, viewA.fileName, 3/10⟩)] },
       []) :=
  ⟨rfl, by norm_num [statePending],
   (claim_C2_debounce_guard statePending viewA false (3/10) (1/200)).1 rfl
     (by norm_num [statePending]),
   rfl,
   by
     have h := (claim_C2_debounce_guard stateIdle viewA false (3/10) 0).2 rfl rfl
     simpa using h⟩

/-- Claim C1 (counterexample to the claim as stated): in a state with a
pending entry for `viewA` and only 5 ms since the last signaled render, a
preemptive `put` for `viewA` is dropped by the debounce guard: the state is
unchanged, no render is triggered, the pending entry survives, and a later
wake of the loop still dispatches the stale delayed render. -/
theorem claim_C1_counterexample :
    ThrottleQueue.put statePending viewA true (1/2) (1/200) = (statePending, []) ∧
    ThrottleQueue.dictGet viewA.id
      ((ThrottleQueue.put statePending viewA true (1/2) (1/200)).1).entries =
      some ⟨viewA, some "a.md", 1/2⟩ ∧
    ThrottleQueue.Event.asyncDispatch viewA (some "a.md") ∈
      (ThrottleQueue.wake
        ((ThrottleQueue.put statePending viewA true (1/2) (1/200)).1) 1).2.1 := by
  have hput : ThrottleQueue.put statePending viewA true (1/2) (1/200) =
      (statePending, []) :=
    ThrottleQueue.put_guard_drop
      (show (ThrottleQueue.dictGet viewA.id statePending.entries).isSome = true from rfl)
      (by norm_num [statePending]) true (1/2)
  refine ⟨hput, by rw [hput]; rfl, ?_⟩
  rw [hput]
  show ThrottleQueue.Event.asyncDispatch viewA (some "a.md") ∈
    (ThrottleQueue.wake statePending 1).2.1
  norm_num [ThrottleQueue.wake, statePending, ThrottleQueue.WAIT_TIMEOUT,
    List.filter_cons, viewA]

/-- Claim C1 (amended): a preemptive `put` for id X removes any pending
entry for X, triggers an immediate render and updates the last-signaled
time, and no stale delayed render for X can be dispatched by the next wake —
provided the call is not dropped by the debounce guard, i.e. unless a
pending entry for X exists and at most 10 ms have passed since the last
signaled render (in which case the call does nothing, see the
counterexample). -/
theorem claim_C1_preemptive_cancels (s : ThrottleQueue.State) (view : View)
    (t now : ℚ) (hen : view.rendererEnabled = true)
    (hc : entriesConsistent s.entries = true)
    (hg : ¬((ThrottleQueue.dictGet view.id s.entries).isSome = true ∧
      now - s.lastSignaled ≤ 1/100)) :
    (ThrottleQueue.put s view true t now).2 = [ThrottleQueue.Event.renderNow view.id] ∧
    ((ThrottleQueue.put s view true t now).1).lastSignaled = now ∧
    ThrottleQueue.dictGet view.id ((ThrottleQueue.put s view true t now).1).entries =
      none ∧
    (∀ k, k ≠ view.id →
      ThrottleQueue.dictGet k ((ThrottleQueue.put s view true t now).1).entries =
        ThrottleQueue.dictGet k s.entries) ∧
    (∀ now2 v f, ThrottleQueue.Event.asyncDispatch v f ∈
        (ThrottleQueue.wake ((ThrottleQueue.put s view true t now).1) now2).2.1 →
      v.id ≠ view.id) := by
  have hput := ThrottleQueue.put_accepted hen hg true t
  rw [if_pos rfl] at hput
  refine ⟨by rw [hput], by rw [hput], ?_, ?_, ?_⟩
  · rw [hput]
    exact ThrottleQueue.dictGet_dictDelete_self view.id s.entries
  · intro k hk
    rw [hput]
    exact ThrottleQueue.dictGet_dictDelete_other hk s.entries
  · intro now2 v f hmem
    obtain ⟨q, hq, hev⟩ := ThrottleQueue.wake_events_sub hmem
    rw [hput] at hq
    have hcons : entriesConsistent (ThrottleQueue.dictDelete view.id s.entries) = true :=
      entriesConsistent_sub (fun p hp => List.mem_of_mem_filter hp) hc
    have hqid : q.2.view.id = q.1 := by
      simp only [entriesConsistent, List.all_eq_true] at hcons
      have := hcons q hq
      simpa using this
    have hkey : q.1 ≠ view.id := by
      simp only [ThrottleQueue.dictDelete, List.mem_filter] at hq
      simpa using hq.2
    have hv : v = q.2.view := by
      injection hev with h1 h2
    rw [hv, hqid]
    exact hkey

/-- Witness for claim C1 (amended): from `statePending` — an entry for
`viewA` pending, one second after the last signal — a preemptive `put`
fires at once, removes the entry, and the next wake dispatches nothing. -/
theorem claim_C1_witness :
    viewA.rendererEnabled = true ∧
    entriesConsistent statePending.entries = true ∧
    ¬((ThrottleQueue.dictGet viewA.id statePending.entries).isSome = true ∧
      (1:ℚ) - statePending.lastSignaled ≤ 1/100) ∧
    (ThrottleQueue.put statePending viewA true (1/2) 1).2 =
      [ThrottleQueue.Event.renderNow viewA.id] ∧
    ThrottleQueue.dictGet viewA.id
      ((ThrottleQueue.put statePending viewA true (1/2) 1).1).entries = none :=
  ⟨rfl, rfl, by norm_num [statePending],
   (claim_C1_preemptive_cancels statePending viewA (1/2) 1 rfl rfl
     (by norm_num [statePending])).1,
   (claim_C1_preemptive_cancels statePending viewA (1/2) 1 rfl rfl
     (by norm_num [statePending])).2.2.1⟩

/-- Claim C4: on a wake with a non-empty pending set (and the loop not
stopping), every entry's remaining timeout is decremented by
`max(now - prev_time, WAIT_TIMEOUT)`; the entries whose timeout thereby
drops to zero or below are removed and each is dispatched asynchronously —
as a `sublime.set_timeout` hand-off event, never an inline render — while
the others stay with their decremented timeouts, and the loop continues. -/
theorem claim_C4_wake_decrements_and_dispatches (s : ThrottleQueue.State) (now : ℚ)
    (hstop : s.stopping = false) (hne : s.entries ≠ []) :
    ((ThrottleQueue.wake s now).1).prevTime = now ∧
    (ThrottleQueue.wake s now).2.2 = false ∧
    (∀ q, q ∈ ((ThrottleQueue.wake s now).1).entries ↔
      ∃ p ∈ s.entries,
        0 < p.2.timeout - max (now - s.prevTime) ThrottleQueue.WAIT_TIMEOUT ∧
        q = (p.1, ⟨p.2.view, p.2.filename,
          p.2.timeout - max (now - s.prevTime) ThrottleQueue.WAIT_TIMEOUT⟩)) ∧
    (∀ ev, ev ∈ (ThrottleQueue.wake s now).2.1 ↔
      ∃ p ∈ s.entries,
        p.2.timeout - max (now - s.prevTime) ThrottleQueue.WAIT_TIMEOUT ≤ 0 ∧
        ev = ThrottleQueue.Event.asyncDispatch p.2.view p.2.filename) := by
  have hemp : s.entries.isEmpty = false := by
    cases he : s.entries with
    | nil => exact absurd he hne
    | cons a l => rfl
  rw [ThrottleQueue.wake, if_neg (by simp [hstop]), if_neg (by simp [hemp])]
  refine ⟨rfl, rfl, ?_, ?_⟩
  · intro q
    simp only [List.mem_filter, List.mem_map]
    constructor
    · rintro ⟨⟨p, hp, hq⟩, hpos⟩
      refine ⟨p, hp, ?_, ?_⟩
      · rw [← hq] at hpos
        simpa using hpos
      · rw [← hq]
    · rintro ⟨p, hp, hpos, hq⟩
      refine ⟨⟨p, hp, hq.symm⟩, ?_⟩
      rw [hq]
      simpa using hpos
  · intro ev
    simp only [List.mem_map, List.mem_filter]
    constructor
    · rintro ⟨q, ⟨⟨p, hp, hq⟩, hle⟩, hev⟩
      refine ⟨p, hp, ?_, ?_⟩
      · rw [← hq] at hle
        simpa using hle
      · rw [← hev, ← hq]
    · rintro ⟨p, hp, hle, hev⟩
      exact ⟨(p.1, ⟨p.2.view, p.2.filename,
          p.2.timeout - max (now - s.prevTime) ThrottleQueue.WAIT_TIMEOUT⟩),
        ⟨⟨p, hp, rfl⟩, by simpa using hle⟩, by rw [hev]⟩

/-- Witness for claim C4: waking `statePending` 100 ms after the previous
wake decrements the single entry's half-second timeout by 100 ms, keeping it
pending with 2/5 s left. -/
theorem claim_C4_witness :
    statePending.stopping = false ∧ statePending.entries ≠ [] ∧
    (1, (⟨viewA, some "a.md", 2/5⟩ : ThrottleQueue.Entry)) ∈
      ((ThrottleQueue.wake statePending (1/10)).1).entries ∧
    ((ThrottleQueue.wake statePending (1/10)).1).prevTime = 1/10 :=
  ⟨rfl, by simp [statePending],
   ((claim_C4_wake_decrements_and_dispatches statePending (1/10) rfl
       (by simp [statePending])).2.2.1 _).mpr
     ⟨(1, ⟨viewA, some "a.md", 1/2⟩), by simp [statePending],
      by norm_num [statePending, ThrottleQueue.WAIT_TIMEOUT],
      by norm_num [statePending, ThrottleQueue.WAIT_TIMEOUT]⟩,
   (claim_C4_wake_decrements_and_dispatches statePending (1/10) rfl
       (by simp [statePending])).1⟩

theorem lastPutFor_cons (k : Nat) (r : PutReq) (rest : List PutReq) :
    lastPutFor k (r :: rest) =
      (lastPutFor k rest).elim (if r.view.id = k then some r else none) some := by
  unfold lastPutFor
  rw [List.foldl_cons, foldl_lastPut]
  rfl

/-- Claim C3: after any sequence of non-preemptive `put` calls, none of them
dropped (renderer enabled and debounce guard passed), the pending set holds
at most one entry per view id, the entry for an id put at least once is
exactly the view/file-name/timeout of the most recent `put` for that id
(coalescing overwrite, not a second entry), and ids never put keep their
previous binding. -/
theorem claim_C3_delayed_coalescing (s : ThrottleQueue.State) (reqs : List PutReq)
    (hacc : allAccepted s reqs = true) (hnd : keysNodup s.entries) :
    keysNodup ((applyPuts s reqs).entries) ∧
    (∀ k r, lastPutFor k reqs = some r →
      ThrottleQueue.dictGet k ((applyPuts s reqs).entries) =
        some ⟨r.view, r.view.fileName, r.timeout⟩) ∧
    (∀ k, lastPutFor k reqs = none →
      ThrottleQueue.dictGet k ((applyPuts s reqs).entries) =
        ThrottleQueue.dictGet k s.entries) := by
  induction reqs generalizing s with
  | nil =>
    refine ⟨hnd, ?_, fun k _ => rfl⟩
    intro k r h
    exact absurd h (by simp [lastPutFor])
  | cons r rest ih =>
    rw [allAccepted_cons] at hacc
    obtain ⟨hr, hrest⟩ := hacc
    have hstep := delayedStep_accepted hr
    have hnd' : keysNodup ((delayedStep s r).entries) := by
      rw [hstep]
      exact ThrottleQueue.keysNodup_dictSet _ _ _ hnd
    obtain ⟨N, P, Q⟩ := ih (delayedStep s r) hrest hnd'
    have happ : applyPuts s (r :: rest) = applyPuts (delayedStep s r) rest := rfl
    refine ⟨by rw [happ]; exact N, ?_, ?_⟩
    · intro k r0 hlast
      rw [lastPutFor_cons] at hlast
      rw [happ]
      cases hl : lastPutFor k rest with
      | some r' =>
        rw [hl] at hlast
        simp only [Option.elim] at hlast
        injection hlast with h0
        exact h0 ▸ P k r' hl
      | none =>
        rw [hl] at hlast
        simp only [Option.elim] at hlast
        by_cases hk : r.view.id = k
        · rw [if_pos hk] at hlast
          injection hlast with h0
          rw [Q k hl, hstep, ← h0, ← hk]
          exact ThrottleQueue.dictGet_dictSet_self r.view.id _ s.entries
        · rw [if_neg hk] at hlast
          exact absurd hlast (by simp)
    · intro k hlast
      rw [lastPutFor_cons] at hlast
      rw [happ]
      cases hl : lastPutFor k rest with
      | some r' =>
        rw [hl] at hlast
        simp only [Option.elim] at hlast
        exact absurd hlast (by simp)
      | none =>
        rw [hl] at hlast
        simp only [Option.elim] at hlast
        have hk : ¬ r.view.id = k := by
          intro hc
          rw [if_pos hc] at hlast
          exact absurd hlast (by simp)
        rw [Q k hl, hstep]
        exact ThrottleQueue.dictGet_dictSet_other (fun hc => hk hc.symm) _ s.entries

/-- Witness for claim C3: two non-dropped delayed puts for id 1 — the second
carrying a new file name and timeout — leave a single entry for id 1 holding
the second put's view, file name and timeout. -/
theorem claim_C3_witness :
    allAccepted stateIdle [⟨viewA, 1/2, 1⟩, ⟨viewA2, 3/10, 2⟩] = true ∧
    keysNodup stateIdle.entries ∧
    lastPutFor viewA.id [⟨viewA, 1/2, 1⟩, ⟨viewA2, 3/10, 2⟩] =
      some ⟨viewA2, 3/10, 2⟩ ∧
    ThrottleQueue.dictGet viewA.id
      ((applyPuts stateIdle [⟨viewA, 1/2, 1⟩, ⟨viewA2, 3/10, 2⟩]).entries) =
      some ⟨viewA2, viewA2.fileName, 3/10⟩ := by
  have hacc : allAccepted stateIdle [⟨viewA, 1/2, 1⟩, ⟨viewA2, 3/10, 2⟩] = true := by
    norm_num [allAccepted, reqAccepted, delayedStep, ThrottleQueue.put,
      RendererManager.hasRendererEnabledInView, ThrottleQueue.dictGet,
      ThrottleQueue.dictSet, stateIdle, viewA, viewA2]
  have hnd : keysNodup stateIdle.entries := by
    simp [keysNodup, stateIdle]
  have hlast : lastPutFor viewA.id [⟨viewA, 1/2, 1⟩, ⟨viewA2, 3/10, 2⟩] =
      some ⟨viewA2, 3/10, 2⟩ := by
    simp [lastPutFor, viewA, viewA2]
  exact ⟨hacc, hnd, hlast,
    (claim_C3_delayed_coalescing stateIdle _ hacc hnd).2.1 viewA.id _ hlast⟩

/-- A concrete export environment: rendering raises `NotImplementedError`,
no target folder is configured. -/
def envW : ExportEnv :=
  { renderResult := Except.error PyErr.notImplementedError
    targetFolder := none
    viewFileName := none
    timestr := "T"
    pathExists := fun _ => false
    isDir := fun _ => false
    tempName := "/tmp/o.html"
    writeResult := fun _ => Except.ok ()
    copyToClipboard := false
    openAfterExporting := false
    splitextBase := fun n => n
    basename := fun n => n
    pathJoin := fun a b => a ++ "/" ++ b }

/-- Claim C8: the export command renders synchronously and writes the result
to the computed path — a temporary file whenever no target folder applies —
honouring the clipboard and auto-open settings; a `NotImplementedError` from
the renderer is suppressed silently, any other render or write failure leads
only to a logged error, and in every case the command finishes in one of
these three outcomes, so no exception escapes. -/
theorem claim_C8_export_errors (env : ExportEnv) :
    (env.renderResult = Except.error PyErr.notImplementedError →
      OmniMarkupExportCommand.run env = ExportOutcome.silentSkip) ∧
    (∀ m, env.renderResult = Except.error (PyErr.ioError m) →
      OmniMarkupExportCommand.run env = ExportOutcome.loggedError) ∧
    (∀ html m, env.renderResult = Except.ok html →
      env.writeResult (exportHtmlFn env) = Except.error (PyErr.ioError m) →
      OmniMarkupExportCommand.run env = ExportOutcome.loggedError) ∧
    (∀ html u, env.renderResult = Except.ok html →
      env.writeResult (exportHtmlFn env) = Except.ok u →
      OmniMarkupExportCommand.run env =
        ExportOutcome.success (exportHtmlFn env) env.copyToClipboard
          env.openAfterExporting) ∧
    (env.targetFolder = none → exportHtmlFn env = env.tempName) ∧
    (OmniMarkupExportCommand.run env = ExportOutcome.silentSkip ∨
     OmniMarkupExportCommand.run env = ExportOutcome.loggedError ∨
     OmniMarkupExportCommand.run env =
       ExportOutcome.success (exportHtmlFn env) env.copyToClipboard
         env.openAfterExporting) := by
  refine ⟨?_, ?_, ?_, ?_, ?_, ?_⟩
  · intro h
    simp [OmniMarkupExportCommand.run, h, pyErrOutcome]
  · intro m h
    simp [OmniMarkupExportCommand.run, h, pyErrOutcome]
  · intro html m h1 h2
    simp [OmniMarkupExportCommand.run, h1, h2, pyErrOutcome]
  · intro html u h1 h2
    simp [OmniMarkupExportCommand.run, h1, h2]
  · intro h
    simp [exportHtmlFn, h]
  · cases hr : env.renderResult with
    | error e =>
      cases e with
      | notImplementedError => simp [OmniMarkupExportCommand.run, hr, pyErrOutcome]
      | ioError m => simp [OmniMarkupExportCommand.run, hr, pyErrOutcome]
    | ok html =>
      cases hw : env.writeResult (exportHtmlFn env) with
      | error e =>
        cases e with
        | notImplementedError => simp [OmniMarkupExportCommand.run, hr, hw, pyErrOutcome]
        | ioError m => simp [OmniMarkupExportCommand.run, hr, hw, pyErrOutcome]
      | ok u => simp [OmniMarkupExportCommand.run, hr, hw]

/-- Witness for claim C8: in `envW` the renderer raises
`NotImplementedError`; the command skips silently, and with no target folder
the computed output path is the temporary file name. -/
theorem claim_C8_witness :
    envW.renderResult = Except.error PyErr.notImplementedError ∧
    OmniMarkupExportCommand.run envW = ExportOutcome.silentSkip ∧
    envW.targetFolder = none ∧
    exportHtmlFn envW = envW.tempName :=
  ⟨rfl, (claim_C8_export_errors envW).1 rfl, rfl,
   (claim_C8_export_errors envW).2.2.2.2.1 rfl⟩
